import Mathlib

/-!
Shallow embedding of the smart-email-deletion-assistant core:
`src/groq_analyzer.py` (GroqAnalyzer), `src/database.py` (EmailDatabase),
and `src/email_processor.py` (EmailProcessor).

Modelling conventions:
* The SQLite store is a record of lists of rows; every write method of
  `EmailDatabase` becomes a pure function `... → DB → DB` (or `... → α × DB`).
* `created_at TIMESTAMP DEFAULT CURRENT_TIMESTAMP` is modelled by a
  monotone counter `DB.clock` stamped onto each inserted run row, so
  `ORDER BY created_at DESC LIMIT 1` picks the run with the largest stamp.
  AUTOINCREMENT row ids for `email_analysis` are not modelled (no query
  reads them); `SELECT *` result order is insertion order, as in SQLite.
* Confidence values (`REAL`) are modelled as rationals; the code only ever
  compares/stores literals such as `0.5`, which is exact.
* External collaborators are parameters: the Gmail page fetch is a function
  `Option String → PageResult` (matching `GmailClient.get_email_page`, which
  catches its own exceptions and returns an empty page on error), the Gmail
  delete call is a function `List String → Bool`, and the Groq chat-completion
  call is an `EngineCall` value: either the HTTP call raises, or it returns a
  response whose JSON decoding is abstracted as a `JsonTop` value.
-/

namespace EmailAssistant

/-- An email as produced by `GmailClient._get_email_details`
(the `labels` field is never read by the core and is omitted). -/
structure Email where
  id : String
  subject : String
  sender : String
  date : String
  snippet : String
  is_unread : Bool
deriving DecidableEq, Repr

/-- One page from `GmailClient.get_email_page`: the email list and the next
page token (`has_more` in the source is exactly `next_page_token is not None`,
so it is not stored separately). -/
structure PageResult where
  emails : List Email
  next_page_token : Option String
deriving Repr

/-- A per-email entry of the engine's `analysis` dict.  Each field is optional
because the code reads them with `dict.get(key, default)`. -/
structure AnalysisEntry where
  action : Option String
  category : Option String
  confidence : Option ℚ
  reason : Option String
deriving DecidableEq, Repr

/-- The engine's `summary` dict; fields optional for the same reason. -/
structure AnalysisSummary where
  total_emails : Option Nat
  recommended_deletions : Option Nat
  needs_review : Option Nat
  keep : Option Nat
deriving DecidableEq, Repr

/-- A structurally valid analysis: a JSON object with both required top-level
fields `analysis` (a map keyed by email id) and `summary`. -/
structure AnalysisResult where
  analysis : List (String × AnalysisEntry)
  summary : AnalysisSummary
deriving DecidableEq, Repr

/-- The JSON decoding of the model's response text, abstracting
`json.loads` (after the markdown-fence stripping in
`_parse_analysis_response`): either decoding raises `JSONDecodeError`, or it
yields a top-level object that may or may not carry the two required fields. -/
inductive JsonTop where
  | invalid : JsonTop
  | obj : Option (List (String × AnalysisEntry)) → Option AnalysisSummary → JsonTop
deriving DecidableEq, Repr

/-- Outcome of the Groq chat-completion call inside
`GroqAnalyzer.analyze_emails`: the API call raises, or returns a response. -/
inductive EngineCall where
  | raises : EngineCall
  | respond : JsonTop → EngineCall
deriving DecidableEq, Repr

/-- Embeds `GroqAnalyzer._parse_analysis_response`: an undecodable response returns
`None` (the `json.JSONDecodeError` branch); a decoded object missing the
`analysis` or `summary` key raises `ValueError`, caught by the generic
handler, which also returns `None`. -/
def parse_analysis_response : JsonTop → Option AnalysisResult
  | JsonTop.invalid => none
  | JsonTop.obj a s =>
      match a, s with
      | some am, some sm => some ⟨am, sm⟩
      | _, _ => none

/-- Embeds `GroqAnalyzer._create_fallback_analysis`: every email of the batch is
marked `review` / category `other` / confidence `0.5`. -/
def create_fallback_analysis (emails : List Email) : AnalysisResult where
  analysis := emails.map fun e =>
    (e.id, ⟨some "review", some "other", some (1/2),
            some "Fallback - requires manual review"⟩)
  summary :=
    ⟨some emails.length, some 0, some emails.length, some 0⟩

/-- Embeds `GroqAnalyzer.analyze_emails`: the `try` block wraps only the API call
(`_parse_analysis_response` catches its own exceptions), so an exception from
the call yields the fallback analysis, while a malformed or structurally
invalid response yields `None`.  (The `emails[:30]` truncation only limits
what is shown to the engine; the engine's reply is returned unchanged.) -/
def analyze_emails (emails : List Email) (call : EngineCall) :
    Option AnalysisResult :=
  match call with
  | EngineCall.raises => some (create_fallback_analysis emails)
  | EngineCall.respond j => parse_analysis_response j

/-! The store layer, embedding `src/database.py`. -/

/-- A row of `analysis_runs`. -/
structure RunRow where
  id : Nat
  run_date : String
  total_emails : Nat
  recommended_deletions : Nat
  needs_review : Nat
  keep_emails : Nat
  status : String
  current_page_token : Option String
  next_page_token : Option String
  created_at : Nat
deriving DecidableEq, Repr

/-- A row of `email_analysis` (the AUTOINCREMENT surrogate id is omitted;
no query reads it). -/
structure EmailRow where
  run_id : Nat
  email_id : String
  subject : String
  sender : String
  date : String
  snippet : String
  is_unread : Bool
  recommended_action : String
  category : String
  confidence : ℚ
  reason : String
  user_decision : Option String
  processed_at : Option Nat
deriving DecidableEq, Repr

/-- A row of `deleted_emails` (timestamp and `can_restore` default omitted;
never read by the core). -/
structure DeletedRow where
  email_id : String
  subject : String
  sender : String
deriving DecidableEq, Repr

/-- The whole SQLite database. -/
structure DB where
  runs : List RunRow
  emails : List EmailRow
  deleted : List DeletedRow
  next_run_id : Nat
  clock : Nat
deriving DecidableEq, Repr

/-- A user decision map (a Python dict `email_id → decision`). -/
abbrev Decisions := List (String × String)

/-- Embeds `ORDER BY created_at DESC LIMIT 1` over a list of run rows. -/
def latestRun (rs : List RunRow) : Option RunRow :=
  rs.foldl
    (fun acc r =>
      match acc with
      | none => some r
      | some a => if a.created_at < r.created_at then some r else some a)
    none

/-- Embeds `SELECT * FROM email_analysis WHERE run_id = ?`. -/
def run_emails (db : DB) (rid : Nat) : List EmailRow :=
  db.emails.filter (fun r => r.run_id == rid)

/-- Embeds `EmailDatabase.get_pending_run`: the most recent run with status
`pending`, together with its email rows. -/
def get_pending_run (db : DB) : Option (RunRow × List EmailRow) :=
  (latestRun (db.runs.filter (fun r => r.status == "pending"))).map
    (fun r => (r, run_emails db r.id))

/-- Embeds `EmailDatabase.get_last_page_token`: the `next_page_token` of the most
recent pending run that has one set. -/
def get_last_page_token (db : DB) : Option String :=
  (latestRun (db.runs.filter
      (fun r => r.status == "pending" && r.next_page_token.isSome))).bind
    (fun r => r.next_page_token)

/-- The body of the per-email loop shared by `save_analysis_run` /
`save_page_analysis`: `analysis['analysis'].get(email['id'], {})` followed by
field-level `.get` defaults. -/
def emailAnalysisRow (rid : Nat) (analysis : AnalysisResult) (e : Email) :
    EmailRow where
  run_id := rid
  email_id := e.id
  subject := e.subject
  sender := e.sender
  date := e.date
  snippet := e.snippet
  is_unread := e.is_unread
  recommended_action :=
    (((analysis.analysis.lookup e.id).getD ⟨none, none, none, none⟩).action).getD "review"
  category :=
    (((analysis.analysis.lookup e.id).getD ⟨none, none, none, none⟩).category).getD "other"
  confidence :=
    (((analysis.analysis.lookup e.id).getD ⟨none, none, none, none⟩).confidence).getD (1/2)
  reason :=
    (((analysis.analysis.lookup e.id).getD ⟨none, none, none, none⟩).reason).getD "No analysis available"
  user_decision := none
  processed_at := none

/-- Embeds `EmailDatabase.save_page_analysis`: inserts a `pending` run row carrying
both pagination tokens, plus one email row per input email, in one
transaction; returns the new run id (`cursor.lastrowid`). -/
def save_page_analysis (emails : List Email) (analysis : AnalysisResult)
    (current_token next_token : Option String) (db : DB) : Nat × DB :=
  let s := analysis.summary
  let rid := db.next_run_id
  let run : RunRow :=
    { id := rid
      run_date := ""
      total_emails := s.total_emails.getD 0
      recommended_deletions := s.recommended_deletions.getD 0
      needs_review := s.needs_review.getD 0
      keep_emails := s.keep.getD 0
      status := "pending"
      current_page_token := current_token
      next_page_token := next_token
      created_at := db.clock }
  (rid,
    { runs := db.runs ++ [run]
      emails := db.emails ++ emails.map (emailAnalysisRow rid analysis)
      deleted := db.deleted
      next_run_id := rid + 1
      clock := db.clock + 1 })

/-- Embeds `EmailDatabase.save_analysis_run`: like `save_page_analysis` but without
pagination tokens; the run row takes the schema defaults
(status `pending`, both tokens NULL). -/
def save_analysis_run (emails : List Email) (analysis : AnalysisResult)
    (db : DB) : Nat × DB :=
  let s := analysis.summary
  let rid := db.next_run_id
  let run : RunRow :=
    { id := rid
      run_date := ""
      total_emails := s.total_emails.getD 0
      recommended_deletions := s.recommended_deletions.getD 0
      needs_review := s.needs_review.getD 0
      keep_emails := s.keep.getD 0
      status := "pending"
      current_page_token := none
      next_page_token := none
      created_at := db.clock }
  (rid,
    { runs := db.runs ++ [run]
      emails := db.emails ++ emails.map (emailAnalysisRow rid analysis)
      deleted := db.deleted
      next_run_id := rid + 1
      clock := db.clock + 1 })

/-- Embeds `EmailDatabase.update_user_decisions`: for each `(email_id, decision)`
pair of the map, `UPDATE email_analysis SET user_decision = ?, processed_at =
CURRENT_TIMESTAMP WHERE run_id = ? AND email_id = ?` — unconditionally, with
no guard on an existing decision. -/
def update_user_decisions (rid : Nat) (decisions : Decisions) (db : DB) : DB :=
  { db with
    emails :=
      decisions.foldl
        (fun rows p =>
          rows.map fun r =>
            if r.run_id == rid && r.email_id == p.1 then
              { r with user_decision := some p.2, processed_at := some db.clock }
            else r)
        db.emails
    clock := db.clock + 1 }

/-- Embeds `EmailDatabase.mark_run_completed`. -/
def mark_run_completed (rid : Nat) (db : DB) : DB :=
  { db with
    runs := db.runs.map fun r =>
      if r.id == rid then { r with status := "completed" } else r }

/-- Embeds `EmailDatabase.mark_old_run_superseded`. -/
def mark_old_run_superseded (rid : Nat) (db : DB) : DB :=
  { db with
    runs := db.runs.map fun r =>
      if r.id == rid then { r with status := "superseded" } else r }

/-- Embeds `EmailDatabase.log_deleted_emails`: append-only insert of
`(email_id, subject, sender)` triples. -/
def log_deleted_emails (entries : List (String × String × String)) (db : DB) :
    DB :=
  { db with
    deleted := db.deleted ++ entries.map (fun t => ⟨t.1, t.2.1, t.2.2⟩) }

/-- An element of `merge_reanalysis_with_new_page`'s `reanalyzed_emails`
argument: an email dict enriched with optional re-classification fields. -/
structure ReEmail where
  id : String
  subject : String
  sender : String
  date : String
  snippet : String
  is_unread : Bool
  action : Option String
  category : Option String
  confidence : Option ℚ
  reason : Option String
deriving DecidableEq, Repr

/-- Embeds `EmailDatabase.merge_reanalysis_with_new_page`: combines re-analyzed
undecided emails with a freshly fetched page into one new pending run,
summing the two summaries. -/
def merge_reanalysis_with_new_page (reanalyzed : List ReEmail)
    (new_analysis : AnalysisResult) (new_emails : List Email)
    (current_token next_token : Option String) (db : DB) : Nat × DB :=
  let ns := new_analysis.summary
  let rid := db.next_run_id
  let run : RunRow :=
    { id := rid
      run_date := ""
      total_emails := reanalyzed.length + new_emails.length
      recommended_deletions :=
        (reanalyzed.countP (fun e => e.action == some "delete")) +
          ns.recommended_deletions.getD 0
      needs_review :=
        (reanalyzed.countP (fun e => e.action == some "review")) +
          ns.needs_review.getD 0
      keep_emails :=
        (reanalyzed.countP (fun e => e.action == some "keep")) +
          ns.keep.getD 0
      status := "pending"
      current_page_token := current_token
      next_page_token := next_token
      created_at := db.clock }
  let reRow : ReEmail → EmailRow := fun e =>
    { run_id := rid
      email_id := e.id
      subject := e.subject
      sender := e.sender
      date := e.date
      snippet := e.snippet
      is_unread := e.is_unread
      recommended_action := e.action.getD "review"
      category := e.category.getD "other"
      confidence := e.confidence.getD (1/2)
      reason := e.reason.getD "Re-analyzed after crash recovery"
      user_decision := none
      processed_at := none }
  (rid,
    { runs := db.runs ++ [run]
      emails := db.emails ++
        (reanalyzed.map reRow ++ new_emails.map (emailAnalysisRow rid new_analysis))
      deleted := db.deleted
      next_run_id := rid + 1
      clock := db.clock + 1 })

/-! The controller layer, embedding `src/email_processor.py`. -/

/-- Python's substring test `sub in s`. -/
def containsSub (s sub : String) : Bool :=
  decide (List.IsInfix sub.toList s.toList)

/-- Embeds `EmailProcessor._apply_preprocessing_filters`: drop every email whose
sender contains a configured protected-sender substring. -/
def apply_preprocessing_filters (protectedSenders : List String)
    (emails : List Email) : List Email :=
  emails.filter
    (fun e => !(protectedSenders.any (fun p => containsSub e.sender p)))

/-- The dict returned by a successful `run_paginated_analysis` (the `summary`
and `page_info` entries carry no store-relevant information and are omitted;
`analysis` is retained implicitly through the saved run). -/
structure ProcSuccess where
  run_id : Nat
  emails : List Email
  has_more_pages : Bool
  next_page_token : Option String
deriving DecidableEq, Repr

/-- Embeds `EmailProcessor.run_paginated_analysis`: fetch one page, return `None` if
it is empty; filter protected senders, return `None` if nothing remains;
classify; a falsy (`None`) analysis returns `None` with nothing persisted;
otherwise persist the page via `save_page_analysis` and return the result
dict.  (`generate_daily_summary` is a pure report generator with no store
effect and is omitted.) -/
def run_paginated_analysis (protectedSenders : List String)
    (fetchPage : Option String → PageResult) (engine : EngineCall)
    (page_token : Option String) (db : DB) : Option ProcSuccess × DB :=
  let page := fetchPage page_token
  if page.emails.isEmpty then (none, db)
  else
    let next_token := page.next_page_token
    let filtered := apply_preprocessing_filters protectedSenders page.emails
    if filtered.isEmpty then (none, db)
    else
      match analyze_emails filtered engine with
      | none => (none, db)
      | some analysis =>
          let r := save_page_analysis filtered analysis page_token next_token db
          (some { run_id := r.1
                  emails := filtered
                  has_more_pages := next_token.isSome
                  next_page_token := next_token },
           r.2)

/-- Embeds `EmailProcessor.continue_from_last_page`: resume from the stored token of
the most recent pending run when one exists, else start from the front. -/
def continue_from_last_page (protectedSenders : List String)
    (fetchPage : Option String → PageResult) (engine : EngineCall)
    (db : DB) : Option ProcSuccess × DB :=
  match get_last_page_token db with
  | some t => run_paginated_analysis protectedSenders fetchPage engine (some t) db
  | none => run_paginated_analysis protectedSenders fetchPage engine none db

/-- The `emails_to_delete` selection loop of
`EmailProcessor.execute_user_decisions`: the pending run's rows whose email
id the decision map sends to `'delete'`. -/
def emailsToDelete (rows : List EmailRow) (decisions : Decisions) :
    List EmailRow :=
  rows.filter (fun r => decisions.lookup r.email_id == some "delete")

/-- Embeds `EmailProcessor.execute_user_decisions`: verify the supplied run id
matches the current pending run; batch-delete the `'delete'`-decided emails
through Gmail; on reported failure return `False` with nothing written; on
success log the deletions, then record all decisions and mark the run
completed. -/
def execute_user_decisions (deleteEmails : List String → Bool) (run_id : Nat)
    (decisions : Decisions) (db : DB) : Bool × DB :=
  match get_pending_run db with
  | none => (false, db)
  | some pr =>
      if pr.1.id == run_id then
        let toDel := emailsToDelete pr.2 decisions
        if toDel.isEmpty then
          (true, mark_run_completed run_id
                   (update_user_decisions run_id decisions db))
        else
          if deleteEmails (toDel.map (fun r => r.email_id)) then
            (true, mark_run_completed run_id
                     (update_user_decisions run_id decisions
                       (log_deleted_emails
                         (toDel.map (fun r => (r.email_id, r.subject, r.sender)))
                         db)))
          else (false, db)
      else (false, db)

/-- Selection of the rows the delete call would act on, for a given store
state, run id and decision map: empty when there is no matching pending run. -/
def pendingDeleteBatch (db : DB) (rid : Nat) (dec : Decisions) :
    List EmailRow :=
  match get_pending_run db with
  | none => []
  | some pr => if pr.1.id == rid then emailsToDelete pr.2 dec else []

/-! Concrete fixtures used by witnesses, counterexamples and evaluation
theorems. -/

/-- A sample unprotected email. -/
def eA : Email := ⟨"e1", "s1", "alice@example.com", "d1", "sn1", true⟩

/-- Another sample unprotected email. -/
def eB : Email := ⟨"e2", "s2", "bob@example.com", "d2", "sn2", false⟩

/-- A sample email from a protected sender (matches substring "corp.com"). -/
def eP : Email := ⟨"e3", "s3", "boss@corp.com", "d3", "sn3", true⟩

/-- An empty store. -/
def dbEmpty : DB := ⟨[], [], [], 1, 0⟩

/-- A well-formed engine entry for email `e2`. -/
def validEntry : AnalysisEntry := ⟨some "keep", some "work", some 1, some "ok"⟩

/-- A structurally valid analysis covering only `e2`. -/
def anGood : AnalysisResult :=
  ⟨[("e2", validEntry)], ⟨some 1, some 0, some 0, some 1⟩⟩

/-- A structurally valid analysis with an empty per-email map. -/
def anEmpty : AnalysisResult := ⟨[], ⟨none, none, none, none⟩⟩

/-- An engine invocation that succeeds with `anGood`. -/
def engineGood : EngineCall :=
  EngineCall.respond (JsonTop.obj (some anGood.analysis) (some anGood.summary))

/-- A page source that always returns the single email `e2` and no
continuation token. -/
def fetchOneB : Option String → PageResult := fun _ => ⟨[eB], none⟩

/-- A page source whose every page is empty. -/
def fetchEmpty : Option String → PageResult := fun _ => ⟨[], none⟩

/-- A page source that returns `e2` only for the stored token "abc". -/
def fetchAbc : Option String → PageResult := fun t =>
  if t = some "abc" then ⟨[eB], none⟩ else ⟨[], none⟩

/-- A pending run header holding next-page token "abc". -/
def runC1 : RunRow := ⟨1, "", 1, 0, 1, 0, "pending", none, some "abc", 0⟩

/-- An undecided email row of run 1 (email `e1`). -/
def rowC1 : EmailRow :=
  ⟨1, "e1", "s1", "alice@example.com", "d1", "sn1", true, "review", "other",
    1/2, "r", none, none⟩

/-- A store holding one pending run (id 1, token "abc") with the single
undecided email `e1`. -/
def dbC1 : DB := ⟨[runC1], [rowC1], [], 2, 1⟩

/-- The row of `e1` after a human decided "keep". -/
def rowKeep : EmailRow := { rowC1 with user_decision := some "keep" }

/-- A store whose pending run 1 already has decision "keep" on `e1`. -/
def dbC9 : DB := ⟨[runC1], [rowKeep], [], 2, 1⟩

/-- A second undecided row (email `e2`) of run 1. -/
def rowC1b : EmailRow :=
  ⟨1, "e2", "s2", "bob@example.com", "d2", "sn2", false, "review", "other",
    1/2, "r", none, none⟩

/-- A store holding one pending run with two undecided emails `e1`, `e2`. -/
def dbC10 : DB := ⟨[runC1], [rowC1, rowC1b], [], 2, 1⟩

/-- The row of `e1` after `update_user_decisions` stamped decision "delete"
over the earlier "keep" (processed-at stamp is `dbC9.clock`). -/
def rowKeepDel : EmailRow :=
  { rowKeep with user_decision := some "delete", processed_at := some 1 }

/-- A protected-sender configuration matching `eP`'s sender. -/
def protC7 : List String := ["corp.com"]

/-- A page source returning one protected and one unprotected email. -/
def fetchC7 : Option String → PageResult := fun _ => ⟨[eP, eB], none⟩

/-- The email row the controller persists for `eB` in run 1 under `anGood`. -/
def rowB : EmailRow := emailAnalysisRow 1 anGood eB

/-! Theorems. -/

/-- Looking up any listed email's id in a constant-valued association list
built over the email list yields that constant. -/
theorem lookup_map_const {c : AnalysisEntry} (emails : List Email) (e : Email)
    (he : e ∈ emails) :
    (emails.map (fun x => (x.id, c))).lookup e.id = some c := by
  induction emails with
  | nil => cases he
  | cons a as ih =>
      rcases List.mem_cons.mp he with rfl | hmem
      · simp [List.lookup]
      · cases hbe : (e.id == a.id) with
        | true => simp [List.lookup, hbe]
        | false => simp [List.lookup, hbe, ih hmem]

/-- C2 (amended): when the engine call returns but its response is
unparseable or missing a required top-level field (`parse_analysis_response`
rejects it), "process next page" returns the failure value with the store
untouched: no run row, no email rows, token not advanced, so re-invocation
retries the identical page.  (The engine-call-raises case is excluded: there
the code persists a fallback run instead — see the counterexample.) -/
theorem C2_invalid_result_aborts (protectedSenders : List String)
    (fetchPage : Option String → PageResult) (j : JsonTop)
    (tok : Option String) (db : DB)
    (h : parse_analysis_response j = none) :
    run_paginated_analysis protectedSenders fetchPage (EngineCall.respond j)
      tok db = (none, db) := by
  unfold run_paginated_analysis
  by_cases h1 : (fetchPage tok).emails.isEmpty
  · simp [h1]
  · by_cases h2 :
        (apply_preprocessing_filters protectedSenders (fetchPage tok).emails).isEmpty
    · simp [h1, h2]
    · simp [h1, h2, analyze_emails, h]

/-- C2 witness: the amended theorem applied to a concrete unparseable
response over a one-email page and an empty store. -/
theorem C2_invalid_result_aborts_witness :
    parse_analysis_response JsonTop.invalid = none
    ∧ run_paginated_analysis [] fetchOneB (EngineCall.respond JsonTop.invalid)
        none dbEmpty = (none, dbEmpty) :=
  ⟨rfl, C2_invalid_result_aborts [] fetchOneB JsonTop.invalid none dbEmpty rfl⟩

/-- C2 counterexample: when the Recommendation Engine call fails (raises),
the operation does NOT abort without persisting — it stores a run built from
the fallback analysis, so a run row is created, contradicting the claim that
every engine failure leaves the store unchanged. -/
theorem C2_engine_failure_persists_run :
    ((run_paginated_analysis [] fetchOneB EngineCall.raises none dbEmpty).1).isSome
      = true
    ∧ ((run_paginated_analysis [] fetchOneB EngineCall.raises none
          dbEmpty).2).runs.length = 1 := by
  decide

/-- C3 counterexample: on malformed engine output (here: a decoded object
missing both required fields) the core does NOT fall back to an all-review
analysis — `analyze_emails` yields `none` and the page operation fails,
i.e. the parse failure propagates as failure of the operation. -/
theorem C3_malformed_output_no_fallback :
    analyze_emails [eB] (EngineCall.respond (JsonTop.obj none none)) = none
    ∧ run_paginated_analysis [] fetchOneB
        (EngineCall.respond (JsonTop.obj none none)) none dbEmpty
      = (none, dbEmpty) :=
  ⟨rfl, rfl⟩

/-- C3 (amended): the all-review/confidence-0.5 fallback is produced when
the engine CALL raises (not when its output is malformed): every email of
the batch is then mapped to action "review" with confidence 1/2. -/
theorem C3_engine_exception_fallback (emails : List Email) (e : Email)
    (he : e ∈ emails) :
    analyze_emails emails EngineCall.raises
      = some (create_fallback_analysis emails)
    ∧ (create_fallback_analysis emails).analysis.lookup e.id =
        some ⟨some "review", some "other", some (1/2),
              some "Fallback - requires manual review"⟩ :=
  ⟨rfl, lookup_map_const emails e he⟩

/-- C3 witness: the amended theorem at the concrete one-email batch. -/
theorem C3_engine_exception_fallback_witness :
    eB ∈ [eB]
    ∧ analyze_emails [eB] EngineCall.raises
        = some (create_fallback_analysis [eB])
    ∧ (create_fallback_analysis [eB]).analysis.lookup eB.id =
        some ⟨some "review", some "other", some (1/2),
              some "Fallback - requires manual review"⟩ := by
  have h := C3_engine_exception_fallback [eB] eB (by simp)
  exact ⟨by simp, h.1, h.2⟩

/-- C8 counterexample: the "no emails" outcome and the classification-failure
outcome are the SAME returned value (`none` with an unchanged store), so the
empty-page outcome is not distinguished from a failure outcome. -/
theorem C8_empty_page_equals_failure :
    run_paginated_analysis [] fetchEmpty engineGood none dbEmpty
      = (none, dbEmpty)
    ∧ run_paginated_analysis [] fetchOneB (EngineCall.respond JsonTop.invalid)
        none dbEmpty = (none, dbEmpty) :=
  ⟨rfl, rfl⟩

/-- C8 (amended): when the page fetch returns zero emails, or filtering
removes every email, no run is created and the store — hence its run
count — is unchanged; the operation returns `none`, which is the same value
a failed classification returns, so the outcome is not distinguishable from
failure by the return value. -/
theorem C8_empty_or_filtered_no_run (protectedSenders : List String)
    (fetchPage : Option String → PageResult) (engine : EngineCall)
    (tok : Option String) (db : DB)
    (h : (fetchPage tok).emails = []
        ∨ apply_preprocessing_filters protectedSenders (fetchPage tok).emails
            = []) :
    run_paginated_analysis protectedSenders fetchPage engine tok db
      = (none, db) := by
  unfold run_paginated_analysis
  rcases h with h | h
  · simp [h]
  · by_cases h1 : (fetchPage tok).emails.isEmpty
    · simp [h1]
    · simp [h1, h]

/-- C8 witness: the amended theorem at a concrete empty page. -/
theorem C8_empty_or_filtered_no_run_witness :
    (fetchEmpty none).emails = []
    ∧ run_paginated_analysis [] fetchEmpty engineGood none dbEmpty
        = (none, dbEmpty) :=
  ⟨rfl, C8_empty_or_filtered_no_run [] fetchEmpty engineGood none dbEmpty
    (Or.inl rfl)⟩

/-- C5: calling `execute_user_decisions` with a run id that is not the id of
the current most-recent pending run (or with no pending run at all) returns
failure and leaves the entire store unchanged. -/
theorem C5_run_id_mismatch_no_effect (df : List String → Bool) (rid : Nat)
    (dec : Decisions) (db : DB)
    (h : (get_pending_run db).map (fun pr => pr.1.id) ≠ some rid) :
    execute_user_decisions df rid dec db = (false, db) := by
  unfold execute_user_decisions
  cases hp : get_pending_run db with
  | none => rfl
  | some pr =>
      rw [hp] at h
      have hne : (pr.1.id == rid) = false := by
        simp only [Option.map_some, ne_eq, Option.some.injEq] at h
        simpa using h
      simp [hne]

/-- C5 witness: a mismatching run id against the concrete single-pending-run
store. -/
theorem C5_run_id_mismatch_no_effect_witness :
    (get_pending_run dbC1).map (fun pr => pr.1.id) ≠ some 99
    ∧ execute_user_decisions (fun _ => true) 99 [("e1", "delete")] dbC1
        = (false, dbC1) :=
  ⟨by decide,
   C5_run_id_mismatch_no_effect (fun _ => true) 99 [("e1", "delete")] dbC1
     (by decide)⟩

/-- C6: an email whose id is absent from the classification result's
analysis map is stored (by `save_page_analysis` and by `save_analysis_run`)
with recommended action "review", category "other", confidence 0.5 and the
explicit "No analysis available" reason — never "delete". -/
theorem C6_missing_analysis_defaults (emails : List Email)
    (analysis : AnalysisResult) (ct nt : Option String) (db : DB) (e : Email)
    (he : e ∈ emails) (hmiss : analysis.analysis.lookup e.id = none) :
    (∃ row ∈ ((save_page_analysis emails analysis ct nt db).2).emails,
        row.email_id = e.id ∧ row.recommended_action = "review"
        ∧ row.category = "other" ∧ row.confidence = 1/2
        ∧ row.reason = "No analysis available")
    ∧ (∃ row ∈ ((save_analysis_run emails analysis db).2).emails,
        row.email_id = e.id ∧ row.recommended_action = "review"
        ∧ row.category = "other" ∧ row.confidence = 1/2
        ∧ row.reason = "No analysis available") := by
  refine ⟨⟨emailAnalysisRow db.next_run_id analysis e, ?_, ?_⟩,
          ⟨emailAnalysisRow db.next_run_id analysis e, ?_, ?_⟩⟩
  · show emailAnalysisRow db.next_run_id analysis e ∈
      db.emails ++ emails.map (emailAnalysisRow db.next_run_id analysis)
    exact List.mem_append_right _ (List.mem_map_of_mem _ he)
  · simp [emailAnalysisRow, hmiss]
  · show emailAnalysisRow db.next_run_id analysis e ∈
      db.emails ++ emails.map (emailAnalysisRow db.next_run_id analysis)
    exact List.mem_append_right _ (List.mem_map_of_mem _ he)
  · simp [emailAnalysisRow, hmiss]

/-- C6 witness: the analysis map `anEmpty` omits `e2`, and the persisted row
carries the review/other/0.5 default. -/
theorem C6_missing_analysis_defaults_witness :
    eB ∈ [eB]
    ∧ anEmpty.analysis.lookup eB.id = none
    ∧ (∃ row ∈ ((save_page_analysis [eB] anEmpty none none dbEmpty).2).emails,
        row.email_id = eB.id ∧ row.recommended_action = "review"
        ∧ row.category = "other" ∧ row.confidence = 1/2
        ∧ row.reason = "No analysis available") := by
  have h := C6_missing_analysis_defaults [eB] anEmpty none none dbEmpty eB
    (by simp) rfl
  exact ⟨by simp, rfl, h.1⟩

/-- C9 counterexample: a user decision is NOT immutable once set —
`update_user_decisions` with the same email id replaces the stored "keep"
with "delete". -/
theorem C9_decision_overwritten :
    dbC9.emails.map (fun r => r.user_decision) = [some "keep"]
    ∧ ((update_user_decisions 1 [("e1", "delete")] dbC9).emails.map
        (fun r => r.user_decision)) = [some "delete"] := by
  decide

/-- C9 (amended): `update_user_decisions` sets the decision of every row of
the run whose email id is listed UNCONDITIONALLY — any previously assigned
decision is overwritten; immutability is not enforced by the store. -/
theorem C9_update_overwrites (db : DB) (rid : Nat) (eid d : String)
    (r : EmailRow)
    (hr : r ∈ (update_user_decisions rid [(eid, d)] db).emails)
    (hrun : r.run_id = rid) (hid : r.email_id = eid) :
    r.user_decision = some d := by
  unfold update_user_decisions at hr
  simp only [List.foldl_cons, List.foldl_nil] at hr
  rcases List.mem_map.mp hr with ⟨r0, hr0, heq⟩
  by_cases hc : (r0.run_id == rid && r0.email_id == eid) = true
  · rw [if_pos hc] at heq
    subst heq
    rfl
  · rw [if_neg hc] at heq
    subst heq
    exact absurd (by simp [hrun, hid]) hc

/-- C9 witness: the amended theorem at the concrete overwritten row. -/
theorem C9_update_overwrites_witness :
    rowKeepDel ∈ (update_user_decisions 1 [("e1", "delete")] dbC9).emails
    ∧ rowKeepDel.user_decision = some "delete" := by
  have hmem : rowKeepDel ∈ (update_user_decisions 1 [("e1", "delete")]
      dbC9).emails := by
    rw [show (update_user_decisions 1 [("e1", "delete")] dbC9).emails
        = [rowKeepDel] from rfl]
    exact List.mem_singleton_self rowKeepDel
  exact ⟨hmem, C9_update_overwrites dbC9 1 "e1" "delete" rowKeepDel hmem rfl rfl⟩

/-- C4: during `execute_user_decisions`, if the Gmail delete call reports
failure on the computed delete batch then (a) the deletion audit log is
never written, and (b) whenever a delete call is actually due (the batch is
nonempty), the whole operation returns failure with the store byte-for-byte
unchanged — no decisions recorded, run left pending, not completed. -/
theorem C4_no_ghost_deletions (df : List String → Bool) (rid : Nat)
    (dec : Decisions) (db : DB)
    (hfail : df ((pendingDeleteBatch db rid dec).map (fun r => r.email_id))
      = false) :
    ((execute_user_decisions df rid dec db).2).deleted = db.deleted
    ∧ (pendingDeleteBatch db rid dec ≠ [] →
        execute_user_decisions df rid dec db = (false, db)) := by
  cases hp : get_pending_run db with
  | none => simp [execute_user_decisions, pendingDeleteBatch, hp]
  | some pr =>
      by_cases hid : (pr.1.id == rid) = true
      · by_cases hde : (emailsToDelete pr.2 dec).isEmpty = true
        · have hnil : emailsToDelete pr.2 dec = [] :=
            List.isEmpty_iff.mp hde
          simp [execute_user_decisions, pendingDeleteBatch, hp, hid, hde,
            hnil, mark_run_completed, update_user_decisions]
        · have hids : df ((emailsToDelete pr.2 dec).map
              (fun r => r.email_id)) = false := by
            simpa [pendingDeleteBatch, hp, hid] using hfail
          simp [execute_user_decisions, pendingDeleteBatch, hp, hid, hde,
            hids]
      · simp [execute_user_decisions, pendingDeleteBatch, hp, hid]

/-- C4 witness: a failing delete call over the concrete pending run with one
"delete" decision aborts with the store unchanged. -/
theorem C4_no_ghost_deletions_witness :
    pendingDeleteBatch dbC1 1 [("e1", "delete")] ≠ []
    ∧ execute_user_decisions (fun _ => false) 1 [("e1", "delete")] dbC1
        = (false, dbC1) := by
  have hb : pendingDeleteBatch dbC1 1 [("e1", "delete")] = [rowC1] := rfl
  have hne : pendingDeleteBatch dbC1 1 [("e1", "delete")] ≠ [] := by
    rw [hb]; exact List.cons_ne_nil _ _
  exact ⟨hne,
    (C4_no_ghost_deletions (fun _ => false) 1 [("e1", "delete")] dbC1 rfl).2
      hne⟩

/-- Rows of the run map to status "completed" under `mark_run_completed`. -/
theorem mark_completed_status (rid : Nat) (d : DB) :
    ∀ run ∈ (mark_run_completed rid d).runs, run.id = rid →
      run.status = "completed" := by
  intro run hrun hrid
  rcases List.mem_map.mp hrun with ⟨r0, _, heq⟩
  by_cases hc : (r0.id == rid) = true
  · rw [if_pos hc] at heq; subst heq; rfl
  · rw [if_neg hc] at heq; subst heq; exact absurd (by simp [hrid]) hc

/-- A row whose email id the decision map does not mention survives the
per-pair update fold unchanged. -/
theorem mem_foldl_update (rid c : Nat) (dec : Decisions) :
    ∀ (rows : List EmailRow) (r : EmailRow), r ∈ rows →
      dec.lookup r.email_id = none →
      r ∈ dec.foldl
          (fun rows p => rows.map fun x =>
            if x.run_id == rid && x.email_id == p.1 then
              { x with user_decision := some p.2, processed_at := some c }
            else x)
          rows := by
  induction dec with
  | nil => intro rows r hmem _; simpa using hmem
  | cons p ps ih =>
      intro rows r hmem hlk
      obtain ⟨k, v⟩ := p
      cases hbe : (r.email_id == k) with
      | true => simp [List.lookup, hbe] at hlk
      | false =>
          simp only [List.lookup, hbe] at hlk
          simp only [List.foldl_cons]
          refine ih _ r ?_ hlk
          refine List.mem_map.mpr ⟨r, hmem, ?_⟩
          rw [if_neg]
          simp [hbe]

/-- A row whose email id the decision map does not mention is untouched by
`update_user_decisions` and remains in the store. -/
theorem mem_update_emails (rid : Nat) (dec : Decisions) (d : DB)
    (r : EmailRow) (hr : r ∈ d.emails)
    (hlk : dec.lookup r.email_id = none) :
    r ∈ (update_user_decisions rid dec d).emails :=
  mem_foldl_update rid d.clock dec d.emails r hr hlk

/-- C10: when `execute_user_decisions` is invoked against the matching
pending run and the delete call (if any) reports success, the operation
succeeds and marks the run completed REGARDLESS of whether the decision map
covers all of the run's email ids; rows whose ids are absent from the map
are left untouched (decision still null), not defaulted. -/
theorem C10_completion_regardless_of_coverage (df : List String → Bool)
    (rid : Nat) (dec : Decisions) (db : DB) (pr : RunRow × List EmailRow)
    (hp : get_pending_run db = some pr) (hid : pr.1.id = rid)
    (hdf : df ((emailsToDelete pr.2 dec).map (fun r => r.email_id)) = true) :
    (execute_user_decisions df rid dec db).1 = true
    ∧ (∀ run ∈ ((execute_user_decisions df rid dec db).2).runs,
        run.id = rid → run.status = "completed")
    ∧ (∀ r ∈ db.emails, dec.lookup r.email_id = none →
        r ∈ ((execute_user_decisions df rid dec db).2).emails) := by
  have hbeq : (pr.1.id == rid) = true := by simp [hid]
  by_cases hde : (emailsToDelete pr.2 dec).isEmpty = true
  · have hex : execute_user_decisions df rid dec db
        = (true, mark_run_completed rid (update_user_decisions rid dec db)) := by
      simp [execute_user_decisions, hp, hbeq, hde]
    rw [hex]
    exact ⟨rfl, mark_completed_status rid _,
      fun r hr hlk => mem_update_emails rid dec db r hr hlk⟩
  · have hex : execute_user_decisions df rid dec db
        = (true, mark_run_completed rid (update_user_decisions rid dec
            (log_deleted_emails ((emailsToDelete pr.2 dec).map
              (fun r => (r.email_id, r.subject, r.sender))) db))) := by
      simp [execute_user_decisions, hp, hbeq, hde, hdf]
    rw [hex]
    exact ⟨rfl, mark_completed_status rid _,
      fun r hr hlk => mem_update_emails rid dec _ r hr hlk⟩

/-- C10 witness: a two-email pending run, a decision map covering only `e1`;
the operation succeeds, the run is completed, and the untouched `e2` row
survives with a null decision. -/
theorem C10_completion_regardless_of_coverage_witness :
    (execute_user_decisions (fun _ => true) 1 [("e1", "keep")] dbC10).1 = true
    ∧ rowC1b ∈ ((execute_user_decisions (fun _ => true) 1 [("e1", "keep")]
        dbC10).2).emails
    ∧ rowC1b.user_decision = none
    ∧ (((execute_user_decisions (fun _ => true) 1 [("e1", "keep")]
        dbC10).2).runs.map (fun r => r.status)) = ["completed"] := by
  have hp : get_pending_run dbC10 = some (runC1, [rowC1, rowC1b]) := rfl
  have h := C10_completion_regardless_of_coverage (fun _ => true) 1
    [("e1", "keep")] dbC10 (runC1, [rowC1, rowC1b]) hp rfl rfl
  exact ⟨h.1, h.2.2 rowC1b (by simp [dbC10]) rfl, rfl, rfl⟩

/-- C7: every email row that "process next page" adds to the store belongs
to an email whose sender matches no configured protected-sender substring —
protected senders are filtered out strictly before classification, so no
created run stores any row (hence no "delete" recommendation) for them. -/
theorem C7_protected_never_stored (protectedSenders : List String)
    (fetchPage : Option String → PageResult) (engine : EngineCall)
    (tok : Option String) (db : DB) (row : EmailRow)
    (hrow : row ∈ ((run_paginated_analysis protectedSenders fetchPage engine
        tok db).2).emails)
    (hnew : row ∉ db.emails) :
    protectedSenders.any (fun p => containsSub row.sender p) = false := by
  simp only [run_paginated_analysis] at hrow
  split at hrow
  · exact absurd hrow hnew
  · split at hrow
    · exact absurd hrow hnew
    · split at hrow
      · exact absurd hrow hnew
      · simp only [save_page_analysis] at hrow
        rcases List.mem_append.mp hrow with h | h
        · exact absurd h hnew
        · rcases List.mem_map.mp h with ⟨e, he, heq⟩
          subst heq
          have hq := List.of_mem_filter
            (show e ∈ List.filter
                (fun e => !(protectedSenders.any fun p =>
                  containsSub e.sender p))
                (fetchPage tok).emails from he)
          simpa [emailAnalysisRow] using hq

/-- C7 witness: with protected substring "corp.com", a page containing a
protected and an unprotected email yields a run holding only the
unprotected row. -/
theorem C7_protected_never_stored_witness :
    rowB ∈ ((run_paginated_analysis protC7 fetchC7 engineGood none
        dbEmpty).2).emails
    ∧ rowB ∉ dbEmpty.emails
    ∧ protC7.any (fun p => containsSub rowB.sender p) = false := by
  have hmem : rowB ∈ ((run_paginated_analysis protC7 fetchC7 engineGood none
      dbEmpty).2).emails := by
    rw [show ((run_paginated_analysis protC7 fetchC7 engineGood none
        dbEmpty).2).emails = [rowB] from rfl]
    exact List.mem_singleton_self rowB
  have hnot : rowB ∉ dbEmpty.emails := by simp [dbEmpty]
  exact ⟨hmem, hnot,
    C7_protected_never_stored protC7 fetchC7 engineGood none dbEmpty rowB
      hmem hnot⟩

/-- C1: evaluation of "process next page" at the failing input — a store
whose most recent pending run (id 1, stored next-page token "abc") has one
undecided email, with the page at "abc" holding one new email.  The code
does NOT perform the claimed recovery: it creates an independent second
pending run containing only the new page's email, does not re-classify or
merge the undecided email, and leaves the old run pending rather than
superseded (the store's merge operation is never invoked by the
controller). -/
theorem C1_recovery_merge_not_performed :
    get_last_page_token dbC1 = some "abc"
    ∧ (((continue_from_last_page [] fetchAbc engineGood dbC1).2).runs.map
        (fun r => (r.id, r.status))) = [(1, "pending"), (2, "pending")]
    ∧ ((((continue_from_last_page [] fetchAbc engineGood
        dbC1).2).emails.filter (fun r => r.run_id == 2)).map
          (fun r => r.email_id)) = ["e2"] :=
  ⟨rfl, rfl, rfl⟩

end EmailAssistant
